import Mathlib

/-!
Verification of the update pipeline and dump subsystem of the search server
(shallow embedding of `meilisearch-lib/src/index_controller/updates/mod.rs`
and `meilisearch-lib/src/index_controller/dump_actor/mod.rs`).

Modelling choices: byte chunks are lists of naturals, filesystem paths are
lists of path components, and timestamps are naturals.  Effectful code is
embedded as pure functions that additionally return an explicit trace of
filesystem / store events, so that ordering properties ("persist happens
before registration") become properties of the trace.
-/

/-- A byte chunk (the contents of a `Bytes` buffer). -/
abbrev ByteChunk := List Nat

/-- One item yielded by the payload stream: a chunk of bytes (`Ok(bytes)`)
or a payload error (`Err(PayloadError)`); exhaustion of the list models the
stream returning `None`. -/
inductive StreamItem where
  | chunk (b : ByteChunk)
  | err
deriving DecidableEq

/-- `StreamReader` from `updates/mod.rs`: a stream together with the
optional residual chunk `current` kept from the last pulled item. -/
structure StreamReader where
  stream : List StreamItem
  current : Option ByteChunk
deriving DecidableEq

/-- Outcome of one `StreamReader::read` call: `ok data` models
`Ok(data.len())` with `data` copied into the caller's buffer; `brokenPipe`
models `Err(io::Error::new(io::ErrorKind::BrokenPipe, e))`. -/
inductive ReadResult where
  | ok (data : ByteChunk)
  | brokenPipe
deriving DecidableEq

/-- The `Some(bytes)` branch of `StreamReader::read`: split the residual at
`min(bytes.len(), buf.len())`, copy the first part into the buffer, and put
the remainder back into `current` only when it is non-empty. -/
def readCurrent (stream : List StreamItem) (bytes : ByteChunk) (bufLen : Nat) :
    ReadResult × StreamReader :=
  let splitAt := min bytes.length bufLen
  let copied := bytes.take splitAt
  let rest := bytes.drop splitAt
  (ReadResult.ok copied,
   { stream := stream, current := if rest.isEmpty then none else some rest })

/-- `StreamReader::read` from `updates/mod.rs`.  In the source the `None`
branch blocks on the next stream item; on `Some(Ok(bytes))` it stores the
chunk in `current` and calls itself, a recursive call that necessarily lands
in the `Some` branch, so it is unrolled here into `readCurrent`.  `None`
from the stream returns `Ok(0)` and `Some(Err(e))` returns a broken-pipe
I/O error. -/
def StreamReader.read (r : StreamReader) (bufLen : Nat) :
    ReadResult × StreamReader :=
  match r.current with
  | some bytes => readCurrent r.stream bytes bufLen
  | none =>
    match r.stream with
    | [] => (ReadResult.ok [], r)
    | StreamItem.err :: tail => (ReadResult.brokenPipe, ⟨tail, none⟩)
    | StreamItem.chunk b :: tail => readCurrent tail b bufLen

/-- C6: on every `read` call with buffer size `bufLen`: with a residual
chunk held, exactly `min(residual.length, bufLen)` bytes of it are copied
and the remainder (if non-empty) is retained; with no residual and an
exhausted stream the call returns `Ok(0)`; with no residual and an error as
next item the call returns a broken-pipe I/O error; with no residual and a
chunk as next item the call behaves as a read with that chunk as residual
(the blocking pull of the next item). -/
theorem stream_reader_read_spec (r : StreamReader) (bufLen : Nat) :
    (∀ res, r.current = some res →
      (r.read bufLen).1 = ReadResult.ok (res.take (min res.length bufLen)) ∧
      (res.take (min res.length bufLen)).length = min res.length bufLen ∧
      (r.read bufLen).2.current =
        (if (res.drop (min res.length bufLen)).isEmpty then none
         else some (res.drop (min res.length bufLen))) ∧
      (r.read bufLen).2.stream = r.stream) ∧
    (r.current = none → r.stream = [] →
      r.read bufLen = (ReadResult.ok [], r)) ∧
    (∀ tail, r.current = none → r.stream = StreamItem.err :: tail →
      r.read bufLen = (ReadResult.brokenPipe, ⟨tail, none⟩)) ∧
    (∀ b tail, r.current = none → r.stream = StreamItem.chunk b :: tail →
      r.read bufLen = StreamReader.read ⟨tail, some b⟩ bufLen) := by
  obtain ⟨stream, current⟩ := r
  refine ⟨?_, ?_, ?_, ?_⟩
  · rintro res rfl
    refine ⟨rfl, ?_, rfl, rfl⟩
    simp [List.length_take, min_assoc]
  · rintro rfl rfl
    rfl
  · rintro tail rfl rfl
    rfl
  · rintro b tail rfl rfl
    rfl

/-- Witness for C6 at concrete inputs. -/
theorem stream_reader_read_spec_witness :
    ((StreamReader.mk [] (some [5, 6, 7])).read 2).1 = ReadResult.ok [5, 6] ∧
    ((StreamReader.mk [] none).read 2).1 = ReadResult.ok [] ∧
    ((StreamReader.mk [StreamItem.err] none).read 2).1 = ReadResult.brokenPipe := by
  have h1 := ((stream_reader_read_spec ⟨[], some [5, 6, 7]⟩ 2).1 [5, 6, 7] rfl).1
  have h2 := (stream_reader_read_spec ⟨[], none⟩ 2).2.1 rfl rfl
  have h3 := (stream_reader_read_spec ⟨[StreamItem.err], none⟩ 2).2.2.1 [] rfl rfl
  refine ⟨by simpa using h1, by simp [h2], by simp [h3]⟩

/-- C10: when no residual is held and the next stream item is an empty
chunk, `read` returns `Ok(0)` — the end-of-input signal — while the rest of
the stream is still unread: a payload containing an empty chunk is seen as
a premature EOF. -/
theorem read_empty_chunk_signals_eof (tail : List StreamItem) (bufLen : Nat) :
    (StreamReader.mk (StreamItem.chunk [] :: tail) none).read bufLen =
      (ReadResult.ok [], StreamReader.mk tail none) := by
  simp [StreamReader.read, readCurrent]

/-- `DocumentAdditionFormat` from `index_controller/mod.rs`. -/
inductive Format where
  | json
  | ndjson
  | csv
deriving DecidableEq

/-- `milli::update::IndexDocumentsMethod`, as used by document additions. -/
inductive Method where
  | replaceDocuments
  | updateDocuments
deriving DecidableEq

/-- The errors of `UpdateLoopError` relevant to the update handler;
`internalError` stands for the I/O and join errors that
`handle_update` propagates verbatim. -/
inductive UpdateLoopError where
  | missingPayload (format : Format)
  | malformedPayload (format : Format)
  | internalError
deriving DecidableEq

/-- `store::Update`: the compact registration record handed to the Update
Store. -/
inductive StoreUpdate where
  | documentAddition (primaryKey : Option String) (method : Method)
      (contentUuid : Nat)
  | settings
  | clearDocuments
  | deleteDocuments (ids : List Nat)
deriving DecidableEq

/-- `index_controller::Update`: the request-side update message. The
payload of a document addition is the chunk stream. -/
inductive UpdateReq where
  | documentAddition (primaryKey : Option String) (method : Method)
      (format : Format) (payload : List StreamItem)
  | settings
  | clearDocuments
  | deleteDocuments (ids : List Nat)

/-- The Update File Store as seen by `handle_update`: `nextId` is the next
fresh content uuid handed out by `new_update`, `persisted` the content
uuids made visible by a successful `persist()`.  A `new_update` call only
allocates the id and a temporary file; nothing becomes visible before
`persist()`. -/
structure FileStore where
  nextId : Nat
  persisted : List Nat
deriving DecidableEq

/-- Modelled from the spec: the Enqueued status returned by
`register_update` (status.rs is not among the provided sources). -/
inductive UpdateStatus where
  | enqueued (updateId : Nat) (indexUuid : Nat) (reg : StoreUpdate)
deriving DecidableEq

/-- Modelled from the spec: the registry state of the Update Store
(store.rs is not among the provided sources).  Update-id allocation is
abstracted to a single counter; no claim below depends on the per-index
id discipline, only on whether a registration happened at all. -/
structure UpdateStoreState where
  nextUpdateId : Nat
  records : List (Nat × Nat × StoreUpdate)
deriving DecidableEq

/-- Modelled from the spec: `UpdateStore::register_update` writes the
record with status Enqueued and returns it. -/
def UpdateStoreState.register_update (us : UpdateStoreState) (indexUuid : Nat)
    (reg : StoreUpdate) : UpdateStatus × UpdateStoreState :=
  (UpdateStatus.enqueued us.nextUpdateId indexUuid reg,
   { nextUpdateId := us.nextUpdateId + 1,
     records := (us.nextUpdateId, indexUuid, reg) :: us.records })

/-- Observable events of one `handle_update` call, in order. -/
inductive Event where
  | newUpdateFile (contentUuid : Nat)
  | persistPayload (contentUuid : Nat)
  | registerUpdate (indexUuid : Nat) (reg : StoreUpdate)
deriving DecidableEq

/-- Result of one `handle_update` call: the returned value, the states of
both stores afterwards, and the event trace. -/
structure HandleResult where
  result : Except UpdateLoopError UpdateStatus
  fileStore : FileStore
  updateStore : UpdateStoreState
  trace : List Event

/-- Default capacity of Rust's `BufReader`, the buffer `fill_buf` fills
with one `read` call on the wrapped `StreamReader`. -/
def bufReaderCapacity : Nat := 8192

/-- The common tail of `handle_update`: hand the registration to the
Update Store on a blocking worker and return the stored status. -/
def registerStep (fs : FileStore) (us : UpdateStoreState) (indexUuid : Nat)
    (reg : StoreUpdate) (tr : List Event) : HandleResult :=
  let r := us.register_update indexUuid reg
  { result := Except.ok r.1, fileStore := fs, updateStore := r.2,
    trace := tr ++ [Event.registerUpdate indexUuid reg] }

/-- `UpdateLoop::handle_update` from `updates/mod.rs`.  For a document
addition the source: calls `new_update()` (allocating a fresh content uuid
and a temp file), then on a blocking worker fills the `BufReader` once and
fails with `MissingPayload(format)` when the buffer stays empty, parses the
payload in the requested format, persists the payload file, and only then
registers the update.  The outcomes of the format parser
(`read_json`/`read_csv`/`read_ndjson`) and of `persist()` — code outside
the provided sources — are passed in as `parseOutcome` and
`persistOutcome`; the theorems below hold for every outcome. -/
def handle_update (parseOutcome persistOutcome : Except UpdateLoopError Unit)
    (fs : FileStore) (us : UpdateStoreState) (indexUuid : Nat)
    (update : UpdateReq) : HandleResult :=
  match update with
  | UpdateReq.documentAddition pk method fmt payload =>
    let contentUuid := fs.nextId
    let fs1 : FileStore := { nextId := fs.nextId + 1, persisted := fs.persisted }
    let tr0 := [Event.newUpdateFile contentUuid]
    match ((StreamReader.mk payload none).read bufReaderCapacity).1 with
    | ReadResult.brokenPipe =>
      { result := Except.error UpdateLoopError.internalError,
        fileStore := fs1, updateStore := us, trace := tr0 }
    | ReadResult.ok data =>
      if data.isEmpty then
        { result := Except.error (UpdateLoopError.missingPayload fmt),
          fileStore := fs1, updateStore := us, trace := tr0 }
      else
        match parseOutcome with
        | Except.error e =>
          { result := Except.error e, fileStore := fs1, updateStore := us,
            trace := tr0 }
        | Except.ok _ =>
          match persistOutcome with
          | Except.error e =>
            { result := Except.error e, fileStore := fs1, updateStore := us,
              trace := tr0 }
          | Except.ok _ =>
            let fs2 : FileStore :=
              { nextId := fs1.nextId, persisted := contentUuid :: fs1.persisted }
            registerStep fs2 us indexUuid
              (StoreUpdate.documentAddition pk method contentUuid)
              (tr0 ++ [Event.persistPayload contentUuid])
  | UpdateReq.settings => registerStep fs us indexUuid StoreUpdate.settings []
  | UpdateReq.clearDocuments =>
    registerStep fs us indexUuid StoreUpdate.clearDocuments []
  | UpdateReq.deleteDocuments ids =>
    registerStep fs us indexUuid (StoreUpdate.deleteDocuments ids) []

/-- The document-addition case of `handle_update`, named for the theorems
below. -/
def handleDocAddition (parseOutcome persistOutcome : Except UpdateLoopError Unit)
    (fs : FileStore) (us : UpdateStoreState) (indexUuid : Nat)
    (pk : Option String) (method : Method) (fmt : Format)
    (payload : List StreamItem) : HandleResult :=
  handle_update parseOutcome persistOutcome fs us indexUuid
    (UpdateReq.documentAddition pk method fmt payload)

/-- C1: a document addition whose payload stream is empty fails with
`MissingPayload` carrying the request's format; the Update Store state is
unchanged (no record registered), nothing becomes visible in the File
Store (`persisted` unchanged), and the trace holds no persist and no
register event — only the `new_update` allocation that precedes the
emptiness check in the source. -/
theorem handle_update_empty_payload
    (parseOutcome persistOutcome : Except UpdateLoopError Unit)
    (fs : FileStore) (us : UpdateStoreState) (indexUuid : Nat)
    (pk : Option String) (method : Method) (fmt : Format) :
    handle_update parseOutcome persistOutcome fs us indexUuid
        (UpdateReq.documentAddition pk method fmt []) =
      { result := Except.error (UpdateLoopError.missingPayload fmt),
        fileStore := { nextId := fs.nextId + 1, persisted := fs.persisted },
        updateStore := us,
        trace := [Event.newUpdateFile fs.nextId] } := rfl

/-- In the success-shaped trace of a document addition the only register
event sits at index 2, preceded by the persist event at index 1. -/
theorem persist_precedes_register_in_trace (c u : Nat) (reg : StoreUpdate) :
    ∀ i u2 reg2,
      ([Event.newUpdateFile c, Event.persistPayload c,
        Event.registerUpdate u reg].get? i = some (Event.registerUpdate u2 reg2)) →
      ∃ j, j < i ∧ ∃ cid,
        [Event.newUpdateFile c, Event.persistPayload c,
         Event.registerUpdate u reg].get? j = some (Event.persistPayload cid) := by
  intro i u2 reg2 h
  match i with
  | 0 => simp at h
  | 1 => simp at h
  | 2 => exact ⟨1, by omega, c, rfl⟩
  | n + 3 => simp at h

/-- C2: in every document-addition call of `handle_update`, a registration
in the trace is preceded by a successful persist of the payload file;
registration only happens when both parsing and `persist()` succeeded; and
when parsing or persist fails the call returns an error and no
registration is performed. -/
theorem handle_update_persist_before_register
    (parseOutcome persistOutcome : Except UpdateLoopError Unit)
    (fs : FileStore) (us : UpdateStoreState) (indexUuid : Nat)
    (pk : Option String) (method : Method) (fmt : Format)
    (payload : List StreamItem) :
    (∀ i u reg,
      (handleDocAddition parseOutcome persistOutcome fs us indexUuid
          pk method fmt payload).trace.get? i =
        some (Event.registerUpdate u reg) →
      ∃ j, j < i ∧ ∃ cid,
        (handleDocAddition parseOutcome persistOutcome fs us indexUuid
            pk method fmt payload).trace.get? j =
          some (Event.persistPayload cid)) ∧
    ((∃ u reg, Event.registerUpdate u reg ∈
        (handleDocAddition parseOutcome persistOutcome fs us indexUuid
          pk method fmt payload).trace) →
      parseOutcome = Except.ok () ∧ persistOutcome = Except.ok ()) ∧
    (∀ e, parseOutcome = Except.error e ∨ persistOutcome = Except.error e →
      (∃ e2, (handleDocAddition parseOutcome persistOutcome fs us indexUuid
          pk method fmt payload).result = Except.error e2) ∧
      ∀ u reg, Event.registerUpdate u reg ∉
        (handleDocAddition parseOutcome persistOutcome fs us indexUuid
          pk method fmt payload).trace) := by
  have key :
      ((handleDocAddition parseOutcome persistOutcome fs us indexUuid
          pk method fmt payload).trace = [Event.newUpdateFile fs.nextId] ∧
        ∃ e2, (handleDocAddition parseOutcome persistOutcome fs us indexUuid
          pk method fmt payload).result = Except.error e2) ∨
      ((handleDocAddition parseOutcome persistOutcome fs us indexUuid
          pk method fmt payload).trace =
        [Event.newUpdateFile fs.nextId, Event.persistPayload fs.nextId,
         Event.registerUpdate indexUuid
           (StoreUpdate.documentAddition pk method fs.nextId)] ∧
        parseOutcome = Except.ok () ∧ persistOutcome = Except.ok ()) := by
    simp only [handleDocAddition, handle_update]
    split
    · exact Or.inl ⟨rfl, UpdateLoopError.internalError, rfl⟩
    · split
      · exact Or.inl ⟨rfl, UpdateLoopError.missingPayload fmt, rfl⟩
      · cases parseOutcome with
        | error e => exact Or.inl ⟨rfl, e, rfl⟩
        | ok u =>
          cases persistOutcome with
          | error e => exact Or.inl ⟨rfl, e, rfl⟩
          | ok u2 => exact Or.inr ⟨rfl, rfl, rfl⟩
  rcases key with ⟨htr, hres⟩ | ⟨htr, hp, hq⟩
  · refine ⟨?_, ?_, ?_⟩
    · intro i u reg h
      rw [htr] at h
      exfalso
      match i with
      | 0 => simp at h
      | n + 1 => simp at h
    · rintro ⟨u, reg, hmem⟩
      rw [htr] at hmem
      simp at hmem
    · intro e _
      refine ⟨hres, ?_⟩
      intro u reg hmem
      rw [htr] at hmem
      simp at hmem
  · refine ⟨?_, fun _ => ⟨hp, hq⟩, ?_⟩
    · intro i u reg h
      rw [htr] at h ⊢
      exact persist_precedes_register_in_trace fs.nextId indexUuid
        (StoreUpdate.documentAddition pk method fs.nextId) i u reg h
    · intro e he
      rcases he with he | he
      · rw [hp] at he; cases he
      · rw [hq] at he; cases he

/-- Witness for C2 at a concrete input: a failing parse outcome yields an
error result and traces no registration; a succeeding run registers only
after the persist event. -/
theorem handle_update_persist_before_register_witness :
    ((∃ e2, (handleDocAddition (Except.error UpdateLoopError.internalError)
        (Except.ok ()) ⟨0, []⟩ ⟨0, []⟩ 7 none Method.replaceDocuments
        Format.json [StreamItem.chunk [1]]).result = Except.error e2) ∧
      ∀ u reg, Event.registerUpdate u reg ∉
        (handleDocAddition (Except.error UpdateLoopError.internalError)
          (Except.ok ()) ⟨0, []⟩ ⟨0, []⟩ 7 none Method.replaceDocuments
          Format.json [StreamItem.chunk [1]]).trace) ∧
    (∃ j, j < 2 ∧ ∃ cid,
      (handleDocAddition (Except.ok ()) (Except.ok ()) ⟨0, []⟩ ⟨0, []⟩ 7 none
        Method.replaceDocuments Format.json [StreamItem.chunk [1]]).trace.get? j
        = some (Event.persistPayload cid)) := by
  refine ⟨?_, ?_⟩
  · exact (handle_update_persist_before_register
      (Except.error UpdateLoopError.internalError) (Except.ok ()) ⟨0, []⟩
      ⟨0, []⟩ 7 none Method.replaceDocuments Format.json
      [StreamItem.chunk [1]]).2.2 UpdateLoopError.internalError (Or.inl rfl)
  · exact (handle_update_persist_before_register (Except.ok ()) (Except.ok ())
      ⟨0, []⟩ ⟨0, []⟩ 7 none Method.replaceDocuments Format.json
      [StreamItem.chunk [1]]).1 2 7
      (StoreUpdate.documentAddition none Method.replaceDocuments 0) rfl

/-- A JSON value (the fragment `metadata.json` needs).  Timestamps are
abstracted as naturals, so a date serializes as a number. -/
inductive Json where
  | str (s : String)
  | num (n : Nat)
  | obj (fields : List (String × Json))

/-- First-match field lookup in a JSON object's field list. -/
def lookupField : List (String × Json) → String → Option Json
  | [], _ => none
  | (k, v) :: rest, key => if k == key then some v else lookupField rest key

/-- Field lookup on a JSON value; `none` on non-objects. -/
def Json.getField : Json → String → Option Json
  | Json.obj fields, key => lookupField fields key
  | _, _ => none

/-- `Metadata` from `dump_actor/mod.rs`, serialized with
`rename_all = "camelCase"`.  The crate version (`env!("CARGO_PKG_VERSION")`)
and the clock are ambient inputs, passed explicitly. -/
structure Metadata where
  db_version : String
  index_db_size : Nat
  update_db_size : Nat
  dump_date : Nat
deriving DecidableEq

/-- `Metadata::new`: current crate version, the given sizes, and
`dump_date = Utc::now()`. -/
def Metadata.new (dbVersion : String) (index_db_size update_db_size : Nat)
    (now : Nat) : Metadata :=
  { db_version := dbVersion, index_db_size := index_db_size,
    update_db_size := update_db_size, dump_date := now }

/-- Modelled from the spec: the V1 dump metadata (`MetadataV1` lives in
loaders/v1.rs, which is not among the provided sources).  Per the spec the
dump metadata carries `db_version`, `index_db_size` and `update_db_size`,
and V1 omits `dump_date`. -/
structure MetadataV1 where
  db_version : String
  index_db_size : Nat
  update_db_size : Nat
deriving DecidableEq

/-- `MetadataVersion` from `dump_actor/mod.rs`, serialized with
`serde(tag = "dumpVersion")`. -/
inductive MetadataVersion where
  | V1 (meta : MetadataV1)
  | V2 (meta : Metadata)
  | V3 (meta : Metadata)
deriving DecidableEq

/-- `MetadataVersion::new_v3`. -/
def MetadataVersion.new_v3 (dbVersion : String)
    (index_db_size update_db_size now : Nat) : MetadataVersion :=
  MetadataVersion.V3 (Metadata.new dbVersion index_db_size update_db_size now)

/-- `MetadataVersion::db_version`. -/
def MetadataVersion.db_version : MetadataVersion → String
  | MetadataVersion.V1 m => m.db_version
  | MetadataVersion.V2 m => m.db_version
  | MetadataVersion.V3 m => m.db_version

/-- `MetadataVersion::version`. -/
def MetadataVersion.version : MetadataVersion → String
  | MetadataVersion.V1 _ => "V1"
  | MetadataVersion.V2 _ => "V2"
  | MetadataVersion.V3 _ => "V3"

/-- `MetadataVersion::dump_date`: `None` for V1. -/
def MetadataVersion.dump_date : MetadataVersion → Option Nat
  | MetadataVersion.V1 _ => none
  | MetadataVersion.V2 m => some m.dump_date
  | MetadataVersion.V3 m => some m.dump_date

/-- The camelCase serialization of the V2/V3 `Metadata` fields. -/
def Metadata.fieldsJson (m : Metadata) : List (String × Json) :=
  [("dbVersion", Json.str m.db_version),
   ("indexDbSize", Json.num m.index_db_size),
   ("updateDbSize", Json.num m.update_db_size),
   ("dumpDate", Json.num m.dump_date)]

/-- `serde_json::to_writer` on a `MetadataVersion`: internally tagged by
`dumpVersion`, the variant's fields flattened beside the tag. -/
def MetadataVersion.toJson : MetadataVersion → Json
  | MetadataVersion.V1 m => Json.obj
      [("dumpVersion", Json.str "V1"),
       ("dbVersion", Json.str m.db_version),
       ("indexDbSize", Json.num m.index_db_size),
       ("updateDbSize", Json.num m.update_db_size)]
  | MetadataVersion.V2 m => Json.obj (("dumpVersion", Json.str "V2") :: m.fieldsJson)
  | MetadataVersion.V3 m => Json.obj (("dumpVersion", Json.str "V3") :: m.fieldsJson)

/-- `serde_json::from_reader` on `metadata.json`: reads the `dumpVersion`
tag and then the fields of the corresponding variant. -/
def MetadataVersion.fromJson (j : Json) : Option MetadataVersion :=
  match j.getField "dumpVersion" with
  | some (Json.str tag) =>
    if tag == "V1" then
      match j.getField "dbVersion", j.getField "indexDbSize",
          j.getField "updateDbSize" with
      | some (Json.str v), some (Json.num a), some (Json.num b) =>
        some (MetadataVersion.V1 ⟨v, a, b⟩)
      | _, _, _ => none
    else
      match j.getField "dbVersion", j.getField "indexDbSize",
          j.getField "updateDbSize", j.getField "dumpDate" with
      | some (Json.str v), some (Json.num a), some (Json.num b),
        some (Json.num d) =>
        if tag == "V2" then some (MetadataVersion.V2 ⟨v, a, b, d⟩)
        else if tag == "V3" then some (MetadataVersion.V3 ⟨v, a, b, d⟩)
        else none
      | _, _, _, _ => none
  | _ => none

/-- C7: serializing dump metadata to `metadata.json` and re-parsing yields
an equal value: the `dumpVersion` tag, `db_version`, `index_db_size`,
`update_db_size` and `dump_date` are preserved for V2 and V3, and all of
V1's fields (V1 has no `dump_date`) for V1. -/
theorem metadata_json_round_trip (m : MetadataVersion) :
    MetadataVersion.fromJson m.toJson = some m := by
  cases m <;> rfl

/-- `DumpStatus` from `dump_actor/mod.rs`. -/
inductive DumpStatus where
  | done
  | inProgress
  | failed
deriving DecidableEq

/-- `DumpInfo` from `dump_actor/mod.rs`; timestamps are naturals. -/
structure DumpInfo where
  uid : String
  status : DumpStatus
  error : Option String
  started_at : Nat
  finished_at : Option Nat
deriving DecidableEq

/-- `DumpInfo::new`: the given uid and status, no error, `started_at` now,
not finished. -/
def DumpInfo.new (uid : String) (status : DumpStatus) (now : Nat) : DumpInfo :=
  { uid := uid, status := status, error := none, started_at := now,
    finished_at := none }

/-- `DumpInfo::with_error`: status Failed, `finished_at` now, the error. -/
def DumpInfo.with_error (i : DumpInfo) (error : String) (now : Nat) : DumpInfo :=
  { i with
    status := DumpStatus.failed
    finished_at := some now
    error := some error }

/-- `DumpInfo::done`: `finished_at` now, status Done. -/
def DumpInfo.done (i : DumpInfo) (now : Nat) : DumpInfo :=
  { i with finished_at := some now, status := DumpStatus.done }

/-- `DumpInfo::dump_already_in_progress`. -/
def DumpInfo.dump_already_in_progress (i : DumpInfo) : Bool :=
  i.status == DumpStatus.inProgress

/-- A state-changing operation on a `DumpInfo`: the dump task reporting
completion (`done`) or failure (`with_error`). -/
inductive DumpOp where
  | finishOk (now : Nat)
  | finishErr (error : String) (now : Nat)
deriving DecidableEq

/-- Apply a sequence of state-changing operations to a `DumpInfo`. -/
def applyDumpOps (i : DumpInfo) : List DumpOp → DumpInfo
  | [] => i
  | DumpOp.finishOk now :: rest => applyDumpOps (i.done now) rest
  | DumpOp.finishErr e now :: rest => applyDumpOps (i.with_error e now) rest

/-- After any non-empty sequence of state-changing operations the status
is that set by the last operation: Done or Failed. -/
theorem applyDumpOps_status_terminal (ops : List DumpOp) :
    ∀ i : DumpInfo, ops ≠ [] →
      (applyDumpOps i ops).status = DumpStatus.done ∨
      (applyDumpOps i ops).status = DumpStatus.failed := by
  induction ops with
  | nil => exact fun i h => absurd rfl h
  | cons op rest ih =>
    intro i _
    cases rest with
    | nil =>
      cases op with
      | finishOk now => exact Or.inl rfl
      | finishErr e now => exact Or.inr rfl
    | cons op2 rest2 =>
      cases op with
      | finishOk now => exact ih (i.done now) (by simp)
      | finishErr e now => exact ih (i.with_error e now) (by simp)

/-- C8 counterexample: the state-changing operations are unguarded, so the
sequence `done` then `with_error` moves a fresh in-progress `DumpInfo`
from Done to Failed — the claim that Done never becomes Failed under any
sequence of `with_error`/`done` fails. -/
theorem dump_info_done_becomes_failed :
    ((DumpInfo.new "u" DumpStatus.inProgress 0).done 1).status
      = DumpStatus.done ∧
    (((DumpInfo.new "u" DumpStatus.inProgress 0).done 1).with_error "e" 2).status
      = DumpStatus.failed := ⟨rfl, rfl⟩

/-- C8 amended: `done` always yields status Done and `with_error` always
yields status Failed, whatever the current status; hence after any
non-empty sequence of the state-changing operations the status is Done or
Failed and never InProgress — Done and Failed never return to InProgress,
and from InProgress a single operation reaches only Done or Failed.  The
operations are however unguarded: `done` also turns Failed into Done and
`with_error` also turns Done into Failed. -/
theorem dump_info_status_transitions (i : DumpInfo) (ops : List DumpOp)
    (h : ops ≠ []) :
    ((applyDumpOps i ops).status = DumpStatus.done ∨
      (applyDumpOps i ops).status = DumpStatus.failed) ∧
    (applyDumpOps i ops).status ≠ DumpStatus.inProgress ∧
    (∀ now, (i.done now).status = DumpStatus.done) ∧
    (∀ e now, (i.with_error e now).status = DumpStatus.failed) := by
  refine ⟨applyDumpOps_status_terminal ops i h, ?_, fun _ => rfl, fun _ _ => rfl⟩
  rcases applyDumpOps_status_terminal ops i h with h2 | h2 <;> simp [h2]

/-- Witness for C8's amended theorem at a concrete input. -/
theorem dump_info_status_transitions_witness :
    (applyDumpOps (DumpInfo.new "u" DumpStatus.inProgress 0)
      [DumpOp.finishOk 1]).status ≠ DumpStatus.inProgress :=
  (dump_info_status_transitions (DumpInfo.new "u" DumpStatus.inProgress 0)
    [DumpOp.finishOk 1] (by decide)).2.1

/-- A filesystem path, as a list of components. -/
abbrev FsPath := List String

/-- `META_FILE_NAME` from `dump_actor/mod.rs`. -/
def META_FILE_NAME : String := "metadata.json"

/-- Filesystem effects of `DumpTask::run`, in order of occurrence. -/
inductive FsEvent where
  | createDirAll (p : FsPath)
  | createTempDir (p : FsPath)
  | writeMetadata (p : FsPath) (meta : MetadataVersion)
  | resolverDump (dst : FsPath)
  | updatesDump (dst : FsPath)
  | createNamedTempFile (p : FsPath)
  | toTarGz (src dst : FsPath)
  | persistFile (src dst : FsPath)
deriving DecidableEq

/-- `DumpTask` from `dump_actor/mod.rs`; the index-resolver and
update-loop handles are modelled by the trace events their calls emit. -/
structure DumpTask where
  path : FsPath
  uid : String
  update_db_size : Nat
  index_db_size : Nat
deriving DecidableEq

/-- `DumpTask::run`: create the dumps directory `path`; allocate a staging
temporary directory with `tempfile::TempDir::new()` — which places it in
the system temporary directory `tempDir`, not in `path`; write
`metadata.json` there (`MetadataVersion::new_v3` with the crate version
`dbVersion`, the configured sizes, `dump_date = now`); dump the indexes
and the update queues into the staging directory; then on a blocking
worker allocate a named temporary file with
`tempfile::NamedTempFile::new()` — again in `tempDir` — tar+gzip the
staging directory into it and `persist()` (rename) it to
`path.join(uid).with_extension("dump")`.  Dump uids contain no `.`, so
`with_extension` appends `.dump`.  The fresh names picked by the
`tempfile` crate are the `stagingName`/`tempFileName` parameters. -/
def DumpTask.run (tempDir : FsPath) (stagingName tempFileName : String)
    (dbVersion : String) (now : Nat) (t : DumpTask) :
    FsPath × List FsEvent :=
  let stagingDir := tempDir ++ [stagingName]
  let meta := MetadataVersion.new_v3 dbVersion t.index_db_size
    t.update_db_size now
  let tempFilePath := tempDir ++ [tempFileName]
  let dumpPath := t.path ++ [t.uid ++ ".dump"]
  (dumpPath,
   [FsEvent.createDirAll t.path,
    FsEvent.createTempDir stagingDir,
    FsEvent.writeMetadata (stagingDir ++ [META_FILE_NAME]) meta,
    FsEvent.resolverDump stagingDir,
    FsEvent.updatesDump stagingDir,
    FsEvent.createNamedTempFile tempFilePath,
    FsEvent.toTarGz stagingDir tempFilePath,
    FsEvent.persistFile tempFilePath dumpPath])

/-- C3 counterexample: for a concrete dump task with dumps directory
`dumps` and system temporary directory `tmp`, the temporary file receiving
the tar+gzip output is created at `tmp/tmpfile0` — no temporary file is
created inside the dumps directory, so the claim that the temporary file
is located in `<dumps_dir>` fails at this input. -/
theorem dump_temp_file_not_in_dumps_dir :
    ((DumpTask.run ["tmp"] "stage0" "tmpfile0" "0.23.0" 5
        ⟨["dumps"], "uid1", 64, 32⟩).2.filter
      (fun ev => match ev with
        | FsEvent.createNamedTempFile p => decide (p.dropLast = ["dumps"])
        | _ => false)) = [] ∧
    FsEvent.createNamedTempFile ["tmp", "tmpfile0"] ∈
      (DumpTask.run ["tmp"] "stage0" "tmpfile0" "0.23.0" 5
        ⟨["dumps"], "uid1", 64, 32⟩).2 ∧
    FsEvent.toTarGz ["tmp", "stage0"] ["tmp", "tmpfile0"] ∈
      (DumpTask.run ["tmp"] "stage0" "tmpfile0" "0.23.0" 5
        ⟨["dumps"], "uid1", 64, 32⟩).2 := by decide

/-- C3 amended: the dump task writes `metadata.json` tagged
`dumpVersion=V3` with the current db version, the configured sizes and
`dump_date = now` into the staging directory, then tar+gzips the staging
directory into a temporary file located in the system temporary directory
(not in `<dumps_dir>`), and finally renames (persists) that file to
`<uid>.dump` inside `<dumps_dir>`. -/
theorem dump_task_run_spec (tempDir : FsPath)
    (stagingName tempFileName dbVersion : String) (now : Nat) (t : DumpTask) :
    (DumpTask.run tempDir stagingName tempFileName dbVersion now t).2.get? 2 =
      some (FsEvent.writeMetadata
        (tempDir ++ [stagingName] ++ [META_FILE_NAME])
        (MetadataVersion.V3
          { db_version := dbVersion, index_db_size := t.index_db_size,
            update_db_size := t.update_db_size, dump_date := now })) ∧
    (DumpTask.run tempDir stagingName tempFileName dbVersion now t).2.get? 5 =
      some (FsEvent.createNamedTempFile (tempDir ++ [tempFileName])) ∧
    (DumpTask.run tempDir stagingName tempFileName dbVersion now t).2.get? 6 =
      some (FsEvent.toTarGz (tempDir ++ [stagingName])
        (tempDir ++ [tempFileName])) ∧
    (DumpTask.run tempDir stagingName tempFileName dbVersion now t).2.get? 7 =
      some (FsEvent.persistFile (tempDir ++ [tempFileName])
        (t.path ++ [t.uid ++ ".dump"])) ∧
    (DumpTask.run tempDir stagingName tempFileName dbVersion now t).1 =
      t.path ++ [t.uid ++ ".dump"] :=
  ⟨rfl, rfl, rfl, rfl, rfl⟩

/-- Events of `load_dump`, in order of occurrence. -/
inductive LoadEvent where
  | setEnvVar (name : String) (value : FsPath)
  | createTempDir (p : FsPath)
  | fromTarGz (src dst : FsPath)
  | readMetadata (p : FsPath)
  | loadV1 (src dst : FsPath)
  | loadV2 (src dst : FsPath)
  | loadV3 (src dst : FsPath)
  | removeDirAll (p : FsPath)
  | renameDir (src dst : FsPath)
deriving DecidableEq

/-- The loader-dispatch event of `load_dump` for the parsed metadata. -/
def loaderEvent : MetadataVersion → FsPath → FsPath → LoadEvent
  | MetadataVersion.V1 _, src, dst => LoadEvent.loadV1 src dst
  | MetadataVersion.V2 _, src, dst => LoadEvent.loadV2 src dst
  | MetadataVersion.V3 _, src, dst => LoadEvent.loadV3 src dst

/-- `load_dump` from `dump_actor/mod.rs`: compute the parent of `dstPath`
(`"."` when it has none, i.e. for a root path, modelled by `[]`), and set
the platform temp-dir environment variable — `TMP` on Windows, `TMPDIR`
elsewhere — to it, so that the temporary directories below land on the
same filesystem as `dstPath`; extract the archive into a fresh temp dir
`tmp_src`; read `metadata.json` from it; create a fresh temp dir
`tmp_dst`; dispatch to the V1/V2/V3 loader to build the new database tree
into `tmp_dst`; remove `dstPath` when it exists; finally rename `tmp_dst`
to `dstPath`.  The parsed metadata, the fresh names picked by
`tempfile::tempdir()`, the platform, and whether `dstPath` exists on disk
are parameters. -/
def load_dump (isWindows : Bool) (tmpSrcName tmpDstName : String)
    (dstExists : Bool) (meta : MetadataVersion)
    (dstPath srcPath : FsPath) : List LoadEvent :=
  let tempPath := if dstPath.isEmpty then ["."] else dstPath.dropLast
  let tmpSrc := tempPath ++ [tmpSrcName]
  let tmpDst := tempPath ++ [tmpDstName]
  [LoadEvent.setEnvVar (if isWindows then "TMP" else "TMPDIR") tempPath,
   LoadEvent.createTempDir tmpSrc,
   LoadEvent.fromTarGz srcPath tmpSrc,
   LoadEvent.readMetadata (tmpSrc ++ [META_FILE_NAME]),
   LoadEvent.createTempDir tmpDst,
   loaderEvent meta tmpSrc tmpDst]
  ++ (if dstExists then [LoadEvent.removeDirAll dstPath] else [])
  ++ [LoadEvent.renameDir tmpDst dstPath]

/-- C4: for a destination with a parent, `load_dump` first sets the
platform temp-dir environment variable (`TMP` on Windows, `TMPDIR`
elsewhere) to `dstPath`'s parent so its temporary directories share
`dstPath`'s filesystem, builds the new database tree in a temporary
directory under that parent, removes `dstPath` when it exists, and as its
final action renames the temporary destination to `dstPath`. -/
theorem load_dump_spec (isWindows : Bool) (tmpSrcName tmpDstName : String)
    (dstExists : Bool) (meta : MetadataVersion) (dstPath srcPath : FsPath)
    (h : dstPath ≠ []) :
    (load_dump isWindows tmpSrcName tmpDstName dstExists meta dstPath
      srcPath).get? 0 =
      some (LoadEvent.setEnvVar (if isWindows then "TMP" else "TMPDIR")
        dstPath.dropLast) ∧
    LoadEvent.createTempDir (dstPath.dropLast ++ [tmpDstName]) ∈
      load_dump isWindows tmpSrcName tmpDstName dstExists meta dstPath
        srcPath ∧
    loaderEvent meta (dstPath.dropLast ++ [tmpSrcName])
        (dstPath.dropLast ++ [tmpDstName]) ∈
      load_dump isWindows tmpSrcName tmpDstName dstExists meta dstPath
        srcPath ∧
    (dstExists → LoadEvent.removeDirAll dstPath ∈
      load_dump isWindows tmpSrcName tmpDstName dstExists meta dstPath
        srcPath) ∧
    (load_dump isWindows tmpSrcName tmpDstName dstExists meta dstPath
      srcPath).get? (if dstExists then 7 else 6) =
      some (LoadEvent.renameDir (dstPath.dropLast ++ [tmpDstName]) dstPath) ∧
    (load_dump isWindows tmpSrcName tmpDstName dstExists meta dstPath
      srcPath).length = if dstExists then 8 else 7 := by
  have hne : dstPath.isEmpty = false := by
    cases dstPath with
    | nil => exact absurd rfl h
    | cons a l => rfl
  cases dstExists <;> simp [load_dump, hne]

/-- Witness for C4 at a concrete input. -/
theorem load_dump_spec_witness :
    (load_dump false "src0" "dst0" true
      (MetadataVersion.V3 ⟨"0.23.0", 1, 2, 3⟩) ["data", "db"]
      ["d.dump"]).get? 0 =
      some (LoadEvent.setEnvVar "TMPDIR" ["data"]) := by
  have h := load_dump_spec false "src0" "dst0" true
    (MetadataVersion.V3 ⟨"0.23.0", 1, 2, 3⟩) ["data", "db"] ["d.dump"]
    (by decide)
  simpa using h.1

/-- Modelled from the spec: the Dump Actor's in-memory registry of dump
infos (actor.rs and handle_impl.rs are not among the provided sources).
Per the spec a second create-dump while one is in progress returns the
in-progress `DumpInfo`; the in-progress test is
`DumpInfo::dump_already_in_progress` from the provided source. -/
structure DumpActorState where
  dumps : List DumpInfo
deriving DecidableEq

/-- The actor's initial state: no dump registered. -/
def dumpActorInit : DumpActorState := ⟨[]⟩

/-- Modelled from the spec: `create_dump` — when an in-progress info
exists return it and start nothing, otherwise register a fresh in-progress
info and start the dump task. -/
def DumpActorState.create_dump (st : DumpActorState) (freshUid : String)
    (now : Nat) : DumpInfo × DumpActorState :=
  match st.dumps.find? (fun i => i.dump_already_in_progress) with
  | some info => (info, st)
  | none =>
    let info := DumpInfo.new freshUid DumpStatus.inProgress now
    (info, ⟨info :: st.dumps⟩)

/-- Modelled from the spec: the running dump task completing marks the
in-progress info done, or failed carrying the task's error. -/
def DumpActorState.finish_dump (st : DumpActorState) (ok : Bool)
    (error : String) (now : Nat) : DumpActorState :=
  ⟨st.dumps.map (fun i =>
    if i.dump_already_in_progress then
      (if ok then i.done now else i.with_error error now)
    else i)⟩

/-- The Dump Actor's state-changing operations. -/
inductive ActorOp where
  | create (uid : String) (now : Nat)
  | finish (ok : Bool) (error : String) (now : Nat)

/-- Apply a sequence of actor operations. -/
def applyActorOps (st : DumpActorState) : List ActorOp → DumpActorState
  | [] => st
  | ActorOp.create uid now :: rest =>
    applyActorOps (st.create_dump uid now).2 rest
  | ActorOp.finish ok e now :: rest =>
    applyActorOps (st.finish_dump ok e now) rest

/-- At most one registered `DumpInfo` is in progress. -/
def atMostOneInProgress (st : DumpActorState) : Prop :=
  st.dumps.countP (fun i => i.dump_already_in_progress) ≤ 1

/-- Neither `done` nor `with_error` leaves an info in progress. -/
theorem finished_not_in_progress (i : DumpInfo) (ok : Bool) (e : String)
    (now : Nat) :
    (if ok then i.done now else i.with_error e now).dump_already_in_progress
      = false := by
  cases ok <;> rfl

/-- After `finish_dump` no registered info is in progress. -/
theorem countP_finish_dump (l : List DumpInfo) (ok : Bool) (e : String)
    (now : Nat) :
    (l.map (fun i =>
      if i.dump_already_in_progress then
        (if ok then i.done now else i.with_error e now)
      else i)).countP (fun i => i.dump_already_in_progress) = 0 := by
  induction l with
  | nil => rfl
  | cons a l ih =>
    simp only [List.map_cons, List.countP_cons, ih]
    by_cases ha : a.dump_already_in_progress
    · simp [ha, finished_not_in_progress]
    · simp [ha]

/-- `finish_dump` preserves (and in fact re-establishes)
at-most-one-in-progress. -/
theorem finish_dump_preserves (st : DumpActorState) (ok : Bool) (e : String)
    (now : Nat) : atMostOneInProgress (st.finish_dump ok e now) :=
  le_trans (Nat.le_of_eq (countP_finish_dump st.dumps ok e now)) (Nat.zero_le 1)

/-- `create_dump` preserves at-most-one-in-progress. -/
theorem create_dump_preserves (st : DumpActorState) (uid : String) (now : Nat)
    (h : atMostOneInProgress st) :
    atMostOneInProgress (st.create_dump uid now).2 := by
  unfold DumpActorState.create_dump
  cases hf : st.dumps.find? (fun i => i.dump_already_in_progress) with
  | some info => exact h
  | none =>
    have hz : st.dumps.countP (fun i => i.dump_already_in_progress) = 0 := by
      rw [List.countP_eq_zero]
      intro a ha
      exact List.find?_eq_none.mp hf a ha
    show List.countP (fun i => i.dump_already_in_progress)
      (DumpInfo.new uid DumpStatus.inProgress now :: st.dumps) ≤ 1
    rw [List.countP_cons, hz]
    simp [DumpInfo.new, DumpInfo.dump_already_in_progress]

/-- Every operation sequence preserves at-most-one-in-progress. -/
theorem applyActorOps_preserves (ops : List ActorOp) :
    ∀ st, atMostOneInProgress st →
      atMostOneInProgress (applyActorOps st ops) := by
  induction ops with
  | nil => exact fun _ h => h
  | cons op rest ih =>
    intro st h
    cases op with
    | create uid now => exact ih _ (create_dump_preserves st uid now h)
    | finish ok e now => exact ih _ (finish_dump_preserves st ok e now)

/-- C5: in every state the actor reaches from its initial state, at most
one `DumpInfo` has status InProgress; and whenever an in-progress info
exists, a further `create_dump` starts no new dump — the state is
unchanged — and returns that in-progress `DumpInfo` with its uid
unchanged. -/
theorem dump_actor_at_most_one_in_progress (ops : List ActorOp)
    (uid : String) (now : Nat) :
    atMostOneInProgress (applyActorOps dumpActorInit ops) ∧
    (∀ info,
      (applyActorOps dumpActorInit ops).dumps.find?
          (fun i => i.dump_already_in_progress) = some info →
      ((applyActorOps dumpActorInit ops).create_dump uid now).1 = info ∧
      ((applyActorOps dumpActorInit ops).create_dump uid now).2 =
        applyActorOps dumpActorInit ops ∧
      ((applyActorOps dumpActorInit ops).create_dump uid now).1.uid =
        info.uid) := by
  refine ⟨applyActorOps_preserves ops dumpActorInit (by simp [atMostOneInProgress, dumpActorInit]), ?_⟩
  intro info hf
  unfold DumpActorState.create_dump
  rw [hf]
  exact ⟨rfl, rfl, rfl⟩

/-- Witness for C5 at a concrete input: after one create operation the
registered dump with uid `a` is in progress, and a second create returns
it with uid unchanged. -/
theorem dump_actor_at_most_one_in_progress_witness :
    atMostOneInProgress (applyActorOps dumpActorInit [ActorOp.create "a" 0]) ∧
    ((applyActorOps dumpActorInit [ActorOp.create "a" 0]).create_dump "b" 1).1.uid
      = "a" := by
  have h := dump_actor_at_most_one_in_progress [ActorOp.create "a" 0] "b" 1
  refine ⟨h.1, ?_⟩
  have h2 := h.2 (DumpInfo.new "a" DumpStatus.inProgress 0) (by decide)
  rw [h2.2.2]
  rfl
